import Mathlib

/-!
Formal model of the toylang stack virtual machine (`src/main.rs`).

The Rust source is embedded shallowly:

* `DataType`, `Instructions` mirror the enums of the same names.  The Rust
  `f64` payload of `DataType::Float` is modelled as an exact rational; no
  verified property below inspects float arithmetic, rendering or rounding.
* Machine integers (`usize`) are modelled as `Nat` together with an explicit
  `% USIZE` where the source performs wrapping arithmetic.  We model the
  release-mode semantics of Rust: `+`, `-` and `*` on `usize` wrap around
  `2 ^ 64`, while `%` by zero always aborts the process with a builtin
  arithmetic panic (in every build mode).
* The value stack is a `List DataType` whose HEAD is the TOP of the stack
  (the Rust `Vec` pushes and pops at its end).
* Panics are modelled as `Fault` results: the five panic messages of the
  interpreter itself map to the five named faults, and `ArithmeticPanic`
  stands for a builtin Rust arithmetic panic (remainder by zero), which is
  not one of the interpreter's own fault messages.
-/

deriving instance DecidableEq for Except

namespace Toylang

/-- Wrap-around modulus of Rust `usize` on a 64-bit target: `2 ^ 64`. -/
def USIZE : Nat := 18446744073709551616

/-- Mirrors `enum DataType` of the source: `Bool(bool)`, `Int(usize)`,
`Float(f64)` (modelled as an exact rational) and `String(String)`. -/
inductive DataType where
  | Bool (b : Bool)
  | Int (n : Nat)
  | Float (q : Rat)
  | String (s : String)
deriving DecidableEq

/-- Mirrors `enum Instructions` of the source. -/
inductive Instructions where
  | Push (v : DataType)
  | Jump (label : String)
  | IfJmp (label : String)
  | EQ | NE | And | Or | Not
  | Add | Sub | Mul | Div | Mod
  | Dup | Swap | Over | Rot | Drop
  | Print | Exit
deriving DecidableEq

/-- Mirrors the source's `Program::Section(SectionName, Vec<Instructions>)`:
a section name paired with its ordered instruction list. -/
structure Section where
  name : String
  instrs : List Instructions
deriving DecidableEq

/-- The loaded program is the ordered list of its sections (the source's
`Vec<Program>`). -/
abbrev Program := List Section

/-- The runtime fault taxonomy.  The first five constructors are the
interpreter's own panic messages; `ArithmeticPanic` models a builtin Rust
arithmetic panic (remainder by zero in `Mod`, which the source leaves
unchecked), which is not any of the interpreter's own faults. -/
inductive Fault where
  | StackUnderflow
  | TypeMismatch
  | DivisionByZero
  | UnknownLabel
  | NoMainSection
  | ArithmeticPanic
deriving DecidableEq

/-- The load-time error taxonomy (the loader's panic messages). -/
inductive ParseError where
  | MissingOperand
  | InvalidLiteral
  | UnknownInstruction
deriving DecidableEq

/-- The executor's mutable state: the working instruction sequence
(`program_instructions`), the instruction cursor (`ic`), the value stack
(head = top) and the text emitted by `print` so far. -/
structure VMState where
  instrs : List Instructions
  ic : Nat
  stack : List DataType
  out : List String
deriving DecidableEq

/-- Outcome of executing one instruction of the loop body. -/
inductive StepResult where
  | next (st : VMState)
  | exit (st : VMState)
  | fault (f : Fault)
deriving DecidableEq

/-- Outcome of a whole run (fuel-indexed; the source loop may diverge).
A faulted result carries the state at which the faulting instruction was
fetched -- the source discards all state when it panics. -/
inductive RunResult where
  | halted (st : VMState)
  | faulted (f : Fault) (st : VMState)
  | outOfFuel (st : VMState)
deriving DecidableEq

/-- The fault of a run result, if any. -/
def faultOf : RunResult → Option Fault
  | .faulted f _ => some f
  | _ => none

/-- Label resolution: the first section in source order whose name equals
`label` (the source's linear `for` loop with `break` on first match). -/
def findSection (prog : Program) (label : String) : Option Section :=
  prog.find? (fun s => s.name == label)

/-- The jump splice: `program_instructions.splice(ic..ic+1, target)` --
the single instruction at the cursor is replaced in place by the target
section's full instruction list. -/
def spliceAt (instrs : List Instructions) (ic : Nat) (tgt : List Instructions) :
    List Instructions :=
  instrs.take ic ++ tgt ++ instrs.drop (ic + 1)

/-- Rendering used by `print` (Rust `print!("{}", v)`: no appended newline).
Floats are rendered via the rational's `toString`; no verified property
inspects the rendered form of a float. -/
def render : DataType → String
  | .Bool b => if b then "true" else "false"
  | .Int n => toString n
  | .Float q => toString q
  | .String s => s

/-- One iteration of the fetch-execute loop body: the `match instruction`
of the source, for the instruction `i` fetched at `st.ic`.  A `.next`
result re-enters the loop (the cursor update `ic += 1`, skipped by the
`continue` of a taken jump, is part of the returned state); `.exit` is the
`break` of `Instructions::Exit`; `.fault` is a panic. -/
def step (prog : Program) (st : VMState) (i : Instructions) : StepResult :=
  match i with
  | .Push v => .next { st with stack := v :: st.stack, ic := st.ic + 1 }
  | .Add =>
    match st.stack with
    | a :: b :: rest =>
      match a, b with
      | .Int x, .Int y =>
        .next { st with stack := .Int ((x + y) % USIZE) :: rest, ic := st.ic + 1 }
      | .Float x, .Float y =>
        .next { st with stack := .Float (x + y) :: rest, ic := st.ic + 1 }
      | _, _ => .fault .TypeMismatch
    | _ => .fault .StackUnderflow
  | .Sub =>
    match st.stack with
    | a :: b :: rest =>
      match a, b with
      | .Int x, .Int y =>
        .next { st with stack := .Int ((USIZE + x - y) % USIZE) :: rest, ic := st.ic + 1 }
      | .Float x, .Float y =>
        .next { st with stack := .Float (x - y) :: rest, ic := st.ic + 1 }
      | _, _ => .fault .TypeMismatch
    | _ => .fault .StackUnderflow
  | .Mul =>
    match st.stack with
    | a :: b :: rest =>
      match a, b with
      | .Int x, .Int y =>
        .next { st with stack := .Int ((x * y) % USIZE) :: rest, ic := st.ic + 1 }
      | .Float x, .Float y =>
        .next { st with stack := .Float (x * y) :: rest, ic := st.ic + 1 }
      | _, _ => .fault .TypeMismatch
    | _ => .fault .StackUnderflow
  | .Div =>
    match st.stack with
    | a :: b :: rest =>
      match a, b with
      | .Int x, .Int y =>
        if y = 0 then .fault .DivisionByZero
        else .next { st with stack := .Int (x / y) :: rest, ic := st.ic + 1 }
      | .Float x, .Float y =>
        if y = 0 then .fault .DivisionByZero
        else .next { st with stack := .Float (x / y) :: rest, ic := st.ic + 1 }
      | _, _ => .fault .TypeMismatch
    | _ => .fault .StackUnderflow
  | .Mod =>
    match st.stack with
    | a :: b :: rest =>
      match a, b with
      | .Int x, .Int y =>
        if y = 0 then .fault .ArithmeticPanic
        else .next { st with stack := .Int (x % y) :: rest, ic := st.ic + 1 }
      | _, _ => .fault .TypeMismatch
    | _ => .fault .StackUnderflow
  | .Dup =>
    match st.stack with
    | v :: _ => .next { st with stack := v :: st.stack, ic := st.ic + 1 }
    | [] => .fault .StackUnderflow
  | .Swap =>
    match st.stack with
    | a :: b :: rest => .next { st with stack := b :: a :: rest, ic := st.ic + 1 }
    | _ => .fault .StackUnderflow
  | .Over =>
    match st.stack[1]? with
    | some b => .next { st with stack := b :: st.stack, ic := st.ic + 1 }
    | none => .fault .StackUnderflow
  | .Rot =>
    match st.stack with
    | a :: b :: c :: rest =>
      .next { st with stack := c :: a :: b :: rest, ic := st.ic + 1 }
    | _ => .fault .StackUnderflow
  | .EQ =>
    match st.stack with
    | a :: b :: rest =>
      .next { st with stack := .Bool (a == b) :: rest, ic := st.ic + 1 }
    | _ => .fault .StackUnderflow
  | .NE =>
    match st.stack with
    | a :: b :: rest =>
      .next { st with stack := .Bool (a != b) :: rest, ic := st.ic + 1 }
    | _ => .fault .StackUnderflow
  | .And =>
    match st.stack with
    | a :: b :: rest =>
      match a, b with
      | .Bool x, .Bool y =>
        .next { st with stack := .Bool (x && y) :: rest, ic := st.ic + 1 }
      | _, _ => .fault .TypeMismatch
    | _ => .fault .StackUnderflow
  | .Or =>
    match st.stack with
    | a :: b :: rest =>
      match a, b with
      | .Bool x, .Bool y =>
        .next { st with stack := .Bool (x || y) :: rest, ic := st.ic + 1 }
      | _, _ => .fault .TypeMismatch
    | _ => .fault .StackUnderflow
  | .Not =>
    match st.stack with
    | a :: rest =>
      match a with
      | .Bool x => .next { st with stack := .Bool (!x) :: rest, ic := st.ic + 1 }
      | _ => .fault .TypeMismatch
    | [] => .fault .StackUnderflow
  | .Drop => .next { st with stack := st.stack.tail, ic := st.ic + 1 }
  | .Exit => .exit st
  | .Jump label =>
    match findSection prog label with
    | some sec => .next { st with instrs := spliceAt st.instrs st.ic sec.instrs }
    | none => .fault .UnknownLabel
  | .IfJmp label =>
    match st.stack with
    | [] => .fault .StackUnderflow
    | a :: _ =>
      match a with
      | .Bool x =>
        if x then
          match findSection prog label with
          | some sec => .next { st with instrs := spliceAt st.instrs st.ic sec.instrs }
          | none => .fault .UnknownLabel
        else .next { st with ic := st.ic + 1 }
      | .Int x =>
        if x = 0 then
          match findSection prog label with
          | some sec => .next { st with instrs := spliceAt st.instrs st.ic sec.instrs }
          | none => .fault .UnknownLabel
        else .next { st with ic := st.ic + 1 }
      | _ => .fault .TypeMismatch
  | .Print =>
    match st.stack with
    | [] => .fault .StackUnderflow
    | v :: _ => .next { st with out := st.out ++ [render v], ic := st.ic + 1 }

/-- The fetch-execute loop (`while ic < program_instructions.len()`),
indexed by fuel since the source loop may diverge. -/
def run (prog : Program) : Nat → VMState → RunResult
  | 0, st => .outOfFuel st
  | fuel + 1, st =>
    match st.instrs[st.ic]? with
    | none => .halted st
    | some i =>
      match step prog st i with
      | .next st' => run prog fuel st'
      | .exit st' => .halted st'
      | .fault f => .faulted f st

/-- Initial working instruction sequence: the source's `for` loop that
copies the instructions of the first section named `main` and breaks
(leaving the sequence empty when no such section exists). -/
def findMain (prog : Program) : List Instructions :=
  match prog.find? (fun s => s.name == "main") with
  | some s => s.instrs
  | none => []

/-- Executing a loaded program: locate `main`, fail with `NoMainSection`
when the resulting working sequence is empty (before any instruction runs,
with the freshly created empty stack), else run the loop from cursor 0. -/
def interpret (prog : Program) (fuel : Nat) : RunResult :=
  let pi := findMain prog
  if pi.isEmpty then .faulted .NoMainSection ⟨pi, 0, [], []⟩
  else run prog fuel ⟨pi, 0, [], []⟩

/-- Models Rust `str::starts_with(c)` for a single character (the source
tests `value.starts_with('"')`). -/
def startsWithChar (s : String) (c : Char) : Bool :=
  match s.data with
  | [] => false
  | a :: _ => a == c

/-- Models Rust `str::ends_with(c)` for a single character. -/
def endsWithChar (s : String) (c : Char) : Bool :=
  match s.data.getLast? with
  | some a => a == c
  | none => false

/-- Models Rust `str::contains(c)` for a single character. -/
def containsChar (s : String) (c : Char) : Bool :=
  s.data.contains c

/-- Numeric value of a list of ASCII digits, most significant first. -/
def digitsToNat (cs : List Char) : Nat :=
  cs.foldl (fun acc c => acc * 10 + (c.toNat - 48)) 0

/-- Models Rust `str::parse::<f64>` on the decimal literals the language
uses: an optional sign followed by digits around at most one decimal
point.  Exponent, `inf` and `nan` forms of the full Rust grammar are not
modelled; no verified claim depends on which float strings parse, only on
the classification order and on success versus failure. -/
def parseFloatLit (s : String) : Option Rat :=
  let p :=
    match s.data with
    | '-' :: rest => (true, rest)
    | '+' :: rest => (false, rest)
    | cs => (false, cs)
  let neg := p.1
  match p.2.splitOn '.' with
  | [intPart, fracPart] =>
    if !(intPart ++ fracPart).isEmpty && (intPart ++ fracPart).all (·.isDigit) then
      let q : Rat :=
        (digitsToNat intPart : Rat) + (digitsToNat fracPart : Rat) / ((10 : Rat) ^ fracPart.length)
      some (if neg then -q else q)
    else none
  | [intPart] =>
    if !intPart.isEmpty && intPart.all (·.isDigit) then
      some (if neg then -(digitsToNat intPart : Rat) else (digitsToNat intPart : Rat))
    else none
  | _ => none

/-- Models Rust `str::parse::<usize>`: an optional leading `+`, then one or
more ASCII digits, with the value required to fit in 64 bits (overflow is a
parse error). -/
def parseIntLit (s : String) : Option Nat :=
  let body :=
    match s.data with
    | '+' :: rest => rest
    | cs => cs
  if !body.isEmpty && body.all (·.isDigit) then
    let n := digitsToNat body
    if n < USIZE then some n else none
  else none

/-- Models Rust `str::trim_matches('"')`: strip every leading and trailing
double-quote character. -/
def trimQuotes (s : String) : String :=
  ⟨((s.data.dropWhile (· == '"')).reverse.dropWhile (· == '"')).reverse⟩

/-- The source's escape expansion on string literals:
`.replace("\\n", "\n").replace("\\r", "\r")`, in that order. -/
def expandEscapes (s : String) : String :=
  (s.replace "\\n" "\n").replace "\\r" "\r"

/-- The `"push"` arm of the loader (`src/main.rs` lines 106-120): a missing
argument is a parse error; otherwise the argument is classified in order as
a quoted string, a float (contains `'.'`), a boolean (exactly `true` or
`false`), and finally a non-negative integer; a failed parse of the
selected kind is `InvalidLiteral`. -/
def parsePushArg (value : String) : Except ParseError Instructions :=
  if value = "" then .error .MissingOperand
  else if startsWithChar value '"' && endsWithChar value '"' then
    .ok (.Push (.String (expandEscapes (trimQuotes value))))
  else if containsChar value '.' then
    match parseFloatLit value with
    | some q => .ok (.Push (.Float q))
    | none => .error .InvalidLiteral
  else if value = "true" || value = "false" then
    .ok (.Push (.Bool (value = "true")))
  else
    match parseIntLit value with
    | some n => .ok (.Push (.Int n))
    | none => .error .InvalidLiteral

/-- Models Rust `str::split_once(' ')` on the character list of a line. -/
def splitOnceAux : List Char → Option (List Char × List Char)
  | [] => none
  | c :: cs =>
    if c = ' ' then some ([], cs)
    else
      match splitOnceAux cs with
      | some (l, r) => some (c :: l, r)
      | none => none

/-- The source's `line.split_once(" ").unwrap_or_else(|| (line, ""))`:
the mnemonic before the first space and the verbatim remainder (the empty
string when the line has no space). -/
def splitOnceSpace (line : String) : String × String :=
  match splitOnceAux line.data with
  | some (l, r) => (⟨l⟩, ⟨r⟩)
  | none => (line, "")

/-- Models Rust `str::to_lowercase` (character-wise; the mnemonics are
ASCII). -/
def lowercase (s : String) : String :=
  ⟨s.data.map Char.toLower⟩

/-- Decoding one non-comment, non-header line: the mnemonic dispatch table
of the loader (`src/main.rs` lines 103-155). -/
def decodeInstr (line : String) : Except ParseError Instructions :=
  let p := splitOnceSpace line
  let value := p.2
  match lowercase p.1 with
  | "push" => parsePushArg value
  | "eq" => .ok .EQ
  | "ne" => .ok .NE
  | "and" => .ok .And
  | "or" => .ok .Or
  | "not" => .ok .Not
  | "add" => .ok .Add
  | "sub" => .ok .Sub
  | "mul" => .ok .Mul
  | "div" => .ok .Div
  | "mod" => .ok .Mod
  | "drop" => .ok .Drop
  | "dup" => .ok .Dup
  | "swap" => .ok .Swap
  | "over" => .ok .Over
  | "rot" => .ok .Rot
  | "print" => .ok .Print
  | "exit" => .ok .Exit
  | "jump" => if value = "" then .error .MissingOperand else .ok (.Jump value)
  | "ifjmp" => if value = "" then .error .MissingOperand else .ok (.IfJmp value)
  | _ => .error .UnknownInstruction

/-- Label lookup resolves to the first matching section in source order. -/
theorem findSection_first (pre post : Program) (sec : Section) (label : String)
    (hpre : ∀ s ∈ pre, s.name ≠ label) (hsec : sec.name = label) :
    findSection (pre ++ sec :: post) label = some sec := by
  induction pre with
  | nil => simp [findSection, hsec]
  | cons s pre ih =>
    have hs : (s.name == label) = false := by
      simpa using hpre s (by simp)
    have hrest : ∀ x ∈ pre, x.name ≠ label := fun x hx => hpre x (by simp [hx])
    simpa [findSection, hs] using ih hrest

/-- The element at the splice cursor is the head of the spliced-in block. -/
theorem spliceAt_getElem_head (l tgt : List Instructions) (ic : Nat)
    (hic : ic < l.length) (htgt : tgt ≠ []) :
    (spliceAt l ic tgt)[ic]? = tgt.head? := by
  unfold spliceAt
  have hlen : (l.take ic).length = ic := by
    simp [List.length_take]
    omega
  rw [List.append_assoc, List.getElem?_append_right (by omega), hlen, Nat.sub_self]
  cases tgt with
  | nil => exact absurd rfl htgt
  | cons a t => simp

/-- C1: if the current instruction is `jump label` and some section's name
equals `label`, the executor replaces exactly the jump instruction at the
cursor in the working sequence with the full instruction list of the first
matching section in source order and re-enters the loop without advancing
the cursor, so the next instruction fetched is the head of the spliced-in
block; if no section matches, the run faults with `UnknownLabel`. -/
theorem jump_splice_semantics (prog : Program) (st : VMState) (label : String)
    (hic : st.instrs[st.ic]? = some (.Jump label)) :
    (∀ pre sec post, prog = pre ++ sec :: post → (∀ s ∈ pre, s.name ≠ label) →
      sec.name = label →
      step prog st (.Jump label)
          = .next { st with instrs := spliceAt st.instrs st.ic sec.instrs } ∧
      (sec.instrs ≠ [] →
        (spliceAt st.instrs st.ic sec.instrs)[st.ic]? = sec.instrs.head?) ∧
      (∀ fuel, run prog (fuel + 1) st
          = run prog fuel { st with instrs := spliceAt st.instrs st.ic sec.instrs })) ∧
    ((∀ s ∈ prog, s.name ≠ label) →
      step prog st (.Jump label) = .fault .UnknownLabel ∧
      ∀ fuel, run prog (fuel + 1) st = .faulted .UnknownLabel st) := by
  have hlt : st.ic < st.instrs.length := by
    rcases List.getElem?_eq_some_iff.mp hic with ⟨h, _⟩
    exact h
  constructor
  · intro pre sec post hprog hpre hsec
    have hfind : findSection prog label = some sec := by
      rw [hprog]
      exact findSection_first pre post sec label hpre hsec
    refine ⟨?_, ?_, ?_⟩
    · simp [step, hfind]
    · intro hne
      exact spliceAt_getElem_head st.instrs sec.instrs st.ic hlt hne
    · intro fuel
      simp [run, hic, step, hfind]
  · intro hnone
    have hfind : findSection prog label = none := by
      unfold findSection
      rw [List.find?_eq_none]
      intro s hs
      simpa using hnone s hs
    constructor
    · simp [step, hfind]
    · intro fuel
      simp [run, hic, step, hfind]

/-- C1 witness: a concrete jump into section `foo` splices `foo`'s
instructions over the jump at cursor 0. -/
theorem jump_splice_semantics_witness :
    step [⟨"main", [.Jump "foo"]⟩, ⟨"foo", [.Push (.Int 1), .Exit]⟩]
        ⟨[.Jump "foo"], 0, [], []⟩ (.Jump "foo")
      = .next ⟨[.Push (.Int 1), .Exit], 0, [], []⟩ :=
  ((jump_splice_semantics
      [⟨"main", [.Jump "foo"]⟩, ⟨"foo", [.Push (.Int 1), .Exit]⟩]
      ⟨[.Jump "foo"], 0, [], []⟩ "foo" (by decide)).1
    [⟨"main", [.Jump "foo"]⟩] ⟨"foo", [.Push (.Int 1), .Exit]⟩ [] rfl
    (by decide) rfl).1

/-- C2: `ifjmp label` inspects the top of stack without popping; an empty
stack faults `StackUnderflow`; the branch is taken exactly when the top is
boolean `true` or an integer equal to zero (splice-and-continue as `jump`);
boolean `false` and nonzero integers fall through to the next instruction;
a float or string on top faults `TypeMismatch`. -/
theorem ifjmp_semantics (prog : Program) (st : VMState) (label : String) :
    (st.stack = [] → step prog st (.IfJmp label) = .fault .StackUnderflow) ∧
    (∀ v rest, st.stack = v :: rest →
      ((v = .Bool true ∨ v = .Int 0) →
        (∀ sec, findSection prog label = some sec →
          step prog st (.IfJmp label)
            = .next { st with instrs := spliceAt st.instrs st.ic sec.instrs }) ∧
        (findSection prog label = none →
          step prog st (.IfJmp label) = .fault .UnknownLabel)) ∧
      (v = .Bool false →
        step prog st (.IfJmp label) = .next { st with ic := st.ic + 1 }) ∧
      (∀ n, v = .Int n → n ≠ 0 →
        step prog st (.IfJmp label) = .next { st with ic := st.ic + 1 }) ∧
      (∀ q, v = .Float q → step prog st (.IfJmp label) = .fault .TypeMismatch) ∧
      (∀ s, v = .String s → step prog st (.IfJmp label) = .fault .TypeMismatch)) := by
  constructor
  · intro h
    simp [step, h]
  · intro v rest hst
    refine ⟨?_, ?_, ?_, ?_, ?_⟩
    · intro hv
      constructor
      · intro sec hsec
        rcases hv with hv | hv <;> subst hv <;> simp [step, hst, hsec]
      · intro hsec
        rcases hv with hv | hv <;> subst hv <;> simp [step, hst, hsec]
    · intro hv
      subst hv
      simp [step, hst]
    · intro n hv hn
      subst hv
      simp [step, hst, hn]
    · intro q hv
      subst hv
      simp [step, hst]
    · intro s hv
      subst hv
      simp [step, hst]

/-- C2 witness: a `true` on top takes the branch and splices in section
`foo` without popping the stack or advancing the cursor. -/
theorem ifjmp_semantics_witness :
    step [⟨"foo", [.Exit]⟩] ⟨[.IfJmp "foo"], 0, [.Bool true], []⟩ (.IfJmp "foo")
      = .next ⟨[.Exit], 0, [.Bool true], []⟩ :=
  (((ifjmp_semantics [⟨"foo", [.Exit]⟩]
        ⟨[.IfJmp "foo"], 0, [.Bool true], []⟩ "foo").2
      (.Bool true) [] rfl).1 (Or.inl rfl)).1 ⟨"foo", [.Exit]⟩ (by decide)

/-- C3 counterexample: `push 5` `push 0` `div` does NOT fault with
`DivisionByZero` -- the division pops `a = 0` first and `b = 5` second,
the zero test is on `b`, and `a / b = 0 / 5 = 0`, so the run terminates
normally with stack `[0]`. -/
theorem div_push5_push0_counterexample :
    faultOf (interpret [⟨"main", [.Push (.Int 5), .Push (.Int 0), .Div]⟩] 10)
        ≠ some .DivisionByZero ∧
    interpret [⟨"main", [.Push (.Int 5), .Push (.Int 0), .Div]⟩] 10
      = .halted ⟨[.Push (.Int 5), .Push (.Int 0), .Div], 3, [.Int 0], []⟩ := by
  decide

/-- C3 amended: executing the three-instruction main program `push 5`,
`push 0`, `div` terminates normally with final stack `[0]` (binary
arithmetic pops `a = 0` first and `b = 5` second and pushes `a / b = 0`);
the `DivisionByZero` fault requires the second-popped operand `b` to be
zero, as in `push 0` `push 5` `div`. -/
theorem div_push5_push0_amended :
    interpret [⟨"main", [.Push (.Int 5), .Push (.Int 0), .Div]⟩] 10
      = .halted ⟨[.Push (.Int 5), .Push (.Int 0), .Div], 3, [.Int 0], []⟩ ∧
    interpret [⟨"main", [.Push (.Int 0), .Push (.Int 5), .Div]⟩] 10
      = .faulted .DivisionByZero
          ⟨[.Push (.Int 0), .Push (.Int 5), .Div], 2, [.Int 5, .Int 0], []⟩ := by
  decide

/-- C4 counterexample: with bottom-to-top stack `[0, 1, 2, 3]` (so
`a = 1`, `b = 2`, `c = 3`), `rot` yields bottom-to-top `[0, 2, 3, 1]`,
not `[0, 3, 2, 1]` as the claim's headline states (the stacks are written
head = top below). -/
theorem rot_counterexample :
    step [] ⟨[], 0, [.Int 3, .Int 2, .Int 1, .Int 0], []⟩ .Rot
      = .next ⟨[], 1, [.Int 1, .Int 3, .Int 2, .Int 0], []⟩ ∧
    (StepResult.next ⟨[], 1, [.Int 1, .Int 3, .Int 2, .Int 0], []⟩
      ≠ .next ⟨[], 1, [.Int 1, .Int 2, .Int 3, .Int 0], []⟩) := by
  decide

/-- C4 amended: for every stack whose contents bottom-to-top are
`[x, a, b, c]` with `c` on top, `rot` pops `a' = c`, `b' = b`, `c' = a`
and pushes `b'`, `a'`, `c'`, yielding bottom-to-top `[x, b, c, a]`
(consistent with the operational pop/push order the claim itself cites). -/
theorem rot_amended (prog : Program) (instrs : List Instructions) (ic : Nat)
    (out : List String) (x a b c : DataType) (s : List DataType) :
    step prog ⟨instrs, ic, c :: b :: a :: x :: s, out⟩ .Rot
      = .next ⟨instrs, ic + 1, a :: c :: b :: x :: s, out⟩ :=
  rfl

/-- C5: `mod` on integer operands performs `a % b` with no zero check; when
the second-popped operand `b` is zero the run aborts with Rust's builtin
remainder-by-zero arithmetic panic, which is not the interpreter's own
`DivisionByZero` fault that `div` raises and the spec requires. -/
theorem mod_by_zero_builtin_panic :
    interpret [⟨"main", [.Push (.Int 0), .Push (.Int 7), .Mod]⟩] 10
      = .faulted .ArithmeticPanic
          ⟨[.Push (.Int 0), .Push (.Int 7), .Mod], 2, [.Int 7, .Int 0], []⟩ ∧
    Fault.ArithmeticPanic ≠ Fault.DivisionByZero := by
  decide

/-- C6: a loaded program with no section named `main` faults
`NoMainSection` in the initial state (cursor 0, empty stack, no output,
before any instruction runs); when a `main` section with instructions
exists, the working sequence is initialized from the first such section
in source order. -/
theorem no_main_section (prog : Program) (fuel : Nat) :
    ((∀ s ∈ prog, s.name ≠ "main") →
      interpret prog fuel = .faulted .NoMainSection ⟨[], 0, [], []⟩) ∧
    (∀ sec, prog.find? (fun s => s.name == "main") = some sec →
      sec.instrs ≠ [] →
      interpret prog fuel = run prog fuel ⟨sec.instrs, 0, [], []⟩) := by
  constructor
  · intro h
    have hfind : prog.find? (fun s => s.name == "main") = none := by
      rw [List.find?_eq_none]
      intro s hs
      simpa using h s hs
    simp [interpret, findMain, hfind]
  · intro sec hfind hne
    simp [interpret, findMain, hfind, hne]

/-- C6 witness: a program whose only section is `::foo:` faults
`NoMainSection` with the stack still empty; a program with a `main`
section starts running that section's instructions. -/
theorem no_main_section_witness :
    interpret [⟨"foo", [.Exit]⟩] 5 = .faulted .NoMainSection ⟨[], 0, [], []⟩ ∧
    interpret [⟨"bar", [.Exit]⟩, ⟨"main", [.Push (.Int 1)]⟩] 5
      = run [⟨"bar", [.Exit]⟩, ⟨"main", [.Push (.Int 1)]⟩] 5
          ⟨[.Push (.Int 1)], 0, [], []⟩ :=
  ⟨(no_main_section [⟨"foo", [.Exit]⟩] 5).1 (by decide),
   (no_main_section [⟨"bar", [.Exit]⟩, ⟨"main", [.Push (.Int 1)]⟩] 5).2
     ⟨"main", [.Push (.Int 1)]⟩ (by decide) (by decide)⟩

/-- C7: `drop` on an empty stack is a silent no-op (the failed pop is
ignored) while `print` on an empty stack faults `StackUnderflow`; on a
non-empty stack `print` emits exactly the rendered top value (no appended
newline) without consuming it. -/
theorem drop_print_semantics (prog : Program) (instrs : List Instructions)
    (ic : Nat) (out : List String) :
    step prog ⟨instrs, ic, [], out⟩ .Drop = .next ⟨instrs, ic + 1, [], out⟩ ∧
    step prog ⟨instrs, ic, [], out⟩ .Print = .fault .StackUnderflow ∧
    ∀ v s, step prog ⟨instrs, ic, v :: s, out⟩ .Print
        = .next ⟨instrs, ic + 1, v :: s, out ++ [render v]⟩ :=
  ⟨rfl, rfl, fun _ _ => rfl⟩

/-- C9: `over` on a stack with fewer than two elements (empty or a single
element) faults `StackUnderflow`; with at least two elements it pushes a
copy of the second-from-top element and removes nothing. -/
theorem over_semantics (prog : Program) (instrs : List Instructions)
    (ic : Nat) (out : List String) :
    step prog ⟨instrs, ic, [], out⟩ .Over = .fault .StackUnderflow ∧
    (∀ a, step prog ⟨instrs, ic, [a], out⟩ .Over = .fault .StackUnderflow) ∧
    ∀ a b s, step prog ⟨instrs, ic, a :: b :: s, out⟩ .Over
        = .next ⟨instrs, ic + 1, b :: a :: b :: s, out⟩ :=
  ⟨by simp [step], fun _ => by simp [step], fun _ _ _ => by simp [step]⟩

/-- C10: on integer operands `sub` computes `a - b` (`a` popped first, `b`
popped second) in wrapping unsigned 64-bit arithmetic, so for `a < b` the
result is `(a - b) mod 2 ^ 64` and no fault of any kind is raised; in
particular `push 5` `push 3` `sub` computes `3 - 5` and yields
`2 ^ 64 - 2`, not `2`. -/
theorem sub_wraparound (prog : Program) (instrs : List Instructions)
    (ic : Nat) (out : List String) (a b : Nat) (rest : List DataType)
    (ha : a < USIZE) (hb : b < USIZE) (hab : a < b) :
    step prog ⟨instrs, ic, .Int a :: .Int b :: rest, out⟩ .Sub
      = .next ⟨instrs, ic + 1, .Int ((USIZE + a - b) % USIZE) :: rest, out⟩ ∧
    ((((USIZE + a - b) % USIZE : ℕ)) : ℤ) = ((a : ℤ) - (b : ℤ)) % (USIZE : ℤ) ∧
    (∀ f, step prog ⟨instrs, ic, .Int a :: .Int b :: rest, out⟩ .Sub ≠ .fault f) ∧
    interpret [⟨"main", [.Push (.Int 5), .Push (.Int 3), .Sub]⟩] 10
      = .halted ⟨[.Push (.Int 5), .Push (.Int 3), .Sub], 3,
          [.Int 18446744073709551614], []⟩ ∧
    DataType.Int 18446744073709551614 ≠ DataType.Int 2 := by
  refine ⟨rfl, ?_, ?_, by decide, by decide⟩
  · have h1 : USIZE + a - b < USIZE := by omega
    rw [Nat.mod_eq_of_lt h1]
    have h4 : ((USIZE + a - b : ℕ) : ℤ) + (b : ℤ) = ((USIZE : ℕ) : ℤ) + (a : ℤ) := by
      have h3 : USIZE + a - b + b = USIZE + a := by omega
      exact_mod_cast congrArg (fun n : ℕ => (n : ℤ)) h3
    have hUS : ((USIZE : ℕ) : ℤ) = 18446744073709551616 := by
      unfold USIZE
      norm_num
    have ha2 : (a : ℤ) < 18446744073709551616 := by
      unfold USIZE at ha
      exact_mod_cast ha
    have hb2 : (b : ℤ) < 18446744073709551616 := by
      unfold USIZE at hb
      exact_mod_cast hb
    have hab2 : (a : ℤ) < (b : ℤ) := by exact_mod_cast hab
    rw [hUS] at h4 ⊢
    omega
  · intro f
    simp [step]

/-- C10 witness: `3 - 5` on the stack wraps. -/
theorem sub_wraparound_witness :
    step [] ⟨[], 0, [.Int 3, .Int 5], []⟩ .Sub
      = .next ⟨[], 1, [.Int ((USIZE + 3 - 5) % USIZE)], []⟩ :=
  (sub_wraparound [] [] 0 [] 3 5 [] (by decide) (by decide) (by decide)).1

/-- C8: the loader classifies a push argument in order: quoted string
(quotes stripped, escapes expanded), then float when it contains a dot,
then the exact booleans, then a non-negative integer; an absent argument
is `MissingOperand` and a failed parse of the selected kind is
`InvalidLiteral`. -/
theorem push_literal_classification (v : String) :
    (v = "" → parsePushArg v = .error .MissingOperand) ∧
    (v ≠ "" → (startsWithChar v '"' && endsWithChar v '"') = true →
      parsePushArg v = .ok (.Push (.String (expandEscapes (trimQuotes v))))) ∧
    (v ≠ "" → (startsWithChar v '"' && endsWithChar v '"') = false →
      containsChar v '.' = true →
      (∀ q, parseFloatLit v = some q →
        parsePushArg v = .ok (.Push (.Float q))) ∧
      (parseFloatLit v = none → parsePushArg v = .error .InvalidLiteral)) ∧
    (v ≠ "" → (startsWithChar v '"' && endsWithChar v '"') = false →
      containsChar v '.' = false →
      (v = "true" → parsePushArg v = .ok (.Push (.Bool true))) ∧
      (v = "false" → parsePushArg v = .ok (.Push (.Bool false))) ∧
      (v ≠ "true" → v ≠ "false" →
        (∀ n, parseIntLit v = some n →
          parsePushArg v = .ok (.Push (.Int n))) ∧
        (parseIntLit v = none → parsePushArg v = .error .InvalidLiteral))) ∧
    decodeInstr "push" = .error .MissingOperand ∧
    ∀ w, decodeInstr ("push " ++ w) = parsePushArg w := by
  refine ⟨?_, ?_, ?_, ?_, by decide, ?_⟩
  · intro h
    simp [parsePushArg, h]
  · intro h1 h2
    simp [parsePushArg, h1, h2]
  · intro h1 h2 h3
    constructor
    · intro q hq
      simp [parsePushArg, h1, h2, h3, hq]
    · intro hq
      simp [parsePushArg, h1, h2, h3, hq]
  · intro h1 h2 h3
    refine ⟨?_, ?_, ?_⟩
    · intro hv
      subst hv
      decide
    · intro hv
      subst hv
      decide
    · intro ht hf
      constructor
      · intro n hn
        simp [parsePushArg, h1, h2, h3, ht, hf, hn]
      · intro hn
        simp [parsePushArg, h1, h2, h3, ht, hf, hn]
  · intro w
    cases w
    rfl

/-- C8 witness: the empty argument is `MissingOperand` and a plain digit
string is classified as a non-negative integer. -/
theorem push_literal_classification_witness :
    parsePushArg "" = .error .MissingOperand ∧
    parsePushArg "42" = .ok (.Push (.Int 42)) :=
  ⟨(push_literal_classification "").1 rfl,
   (((push_literal_classification "42").2.2.2.1 (by decide) (by decide)
       (by decide)).2.2 (by decide) (by decide)).1 42 (by decide)⟩

end Toylang
